import Mathlib

set_option autoImplicit false

/-!
Verification of the removable-storage lifecycle scripts of this repository:
`usb_tool.py`, `secure-wipe-rich.py`, `current_python_scripts/wipe-rich.py`
and `dcfldd-wrapper.py` (a bash script).  Each Python/bash function that the
claims touch is embedded as an executable Lean definition; external effects
(filesystem existence, udev queries, child-process exit codes, interactive
confirmation) are threaded through explicit environment records, and the
commands a run would execute are collected into traces.
-/

/-! ### usb_tool.py — device discovery -/

/-- One record of the pyudev query `CTX.list_devices(subsystem="block",
DEVTYPE="disk")` as consumed by `list_block_devices`: the device node, the
`ID_TYPE` property, the `ID_MODEL` property, the `size` attribute (in
512-byte sectors), the `removable` attribute and the `ID_BUS` property. -/
structure UdevDevice where
  device_node : String
  id_type : String
  id_model : String
  size_sectors : Nat
  removable_attr : Nat
  id_bus : String
deriving DecidableEq

/-- The dict built for each device by `usb_tool.list_block_devices`. -/
structure BlockDevice where
  name : String
  model : String
  size_bytes : Nat
  removable : Bool
  bus : String
deriving DecidableEq

/-- The host environment `usb_tool.py` runs against: the udev disk records,
the set of paths for which `Path(p).exists()` holds, whether
`os.geteuid() == 0`, which external commands exit successfully, and what
`blkid -o value -s TYPE` reports for a path. -/
structure SysEnv where
  udevDisks : List UdevDevice
  fsPaths : List String
  euidIsRoot : Bool
  runOk : List String → Bool
  blkidType : String → String

/-- `usb_tool.list_block_devices`: skip optical devices (`ID_TYPE == "cd"`),
convert sectors to bytes, and read removability from the sysfs attribute. -/
def list_block_devices (env : SysEnv) : List BlockDevice :=
  (env.udevDisks.filter fun d => d.id_type != "cd").map fun d =>
    { name := d.device_node
      model := d.id_model
      size_bytes := d.size_sectors * 512
      removable := d.removable_attr != 0
      bus := d.id_bus }

/-! ### usb_tool.py — filesystem backends -/

/-- A filesystem backend of `usb_tool.py`: its registry key and the
`mkfs`/repair command prefixes. -/
structure FSBackend where
  name : String
  mkfs_cmd : List String
  repair_cmd : List String
deriving DecidableEq

/-- `FAT32Backend` of `usb_tool.py`. -/
def FAT32Backend : FSBackend :=
  { name := "fat32", mkfs_cmd := ["mkfs.fat", "-F", "32"], repair_cmd := ["dosfsck", "-a"] }

/-- `EXT4Backend` of `usb_tool.py`. -/
def EXT4Backend : FSBackend :=
  { name := "ext4", mkfs_cmd := ["mkfs.ext4", "-F"], repair_cmd := ["e2fsck", "-pf"] }

/-- `NTFSBackend` of `usb_tool.py`. -/
def NTFSBackend : FSBackend :=
  { name := "ntfs", mkfs_cmd := ["mkntfs", "-Q", "-F"], repair_cmd := ["ntfsfix"] }

/-- `FS_TABLE = {b.name: b for b in (FAT32Backend(), EXT4Backend(), NTFSBackend())}`. -/
def FS_TABLE : List (String × FSBackend) :=
  [FAT32Backend, EXT4Backend, NTFSBackend].map fun b => (b.name, b)

/-- Python `str.lower()` on the ASCII kind strings involved: lower-case each
character. -/
def pyLower (s : String) : String := ⟨s.data.map Char.toLower⟩

/-- `usb_tool.fs_backend`: look the lower-cased name up in `FS_TABLE`,
`SystemExit("Unsupported filesystem ...")` on a miss. -/
def fs_backend (fs_name : String) : Except String FSBackend :=
  match FS_TABLE.lookup (pyLower fs_name) with
  | some b => .ok b
  | none => .error ("Unsupported filesystem " ++ fs_name)

/-- `FSBackend.format`: `mkfs_cmd + ([] if label is None else ["-n", label]) + [part]`. -/
def FSBackend.formatCmd (b : FSBackend) (part : String) (label : Option String) : List String :=
  b.mkfs_cmd ++ (match label with | none => [] | some l => ["-n", l]) ++ [part]

/-! ### usb_tool.py — safety gate and main -/

/-- The three `SystemExit` sites of `usb_tool.sanity_check`, in source order. -/
inductive SanityError where
  | notExist
  | notDevPath
  | notRemovable
deriving DecidableEq

/-- Python `s.startswith(pre)`, character by character. -/
def pyStartswith (s pre : String) : Bool := pre.data.isPrefixOf s.data

/-- `usb_tool.sanity_check`: the device path must exist, must start with
`/dev/`, and must look removable in the fresh inventory unless `force`. -/
def sanity_check (env : SysEnv) (device : String) (force : Bool) : Except SanityError Unit :=
  if device ∈ env.fsPaths then
    if pyStartswith device "/dev/" then
      let removable := (list_block_devices env).any fun d => d.name == device && d.removable
      if removable = false ∧ force = false then .error .notRemovable else .ok ()
    else .error .notDevPath
  else .error .notExist

/-- Run external commands in order, as successive `sh(...)` calls: stop at the
first failing one.  Returns the executed commands and whether all succeeded. -/
def runCmds (env : SysEnv) : List (List String) → List (List String) × Bool
  | [] => ([], true)
  | c :: rest =>
    if env.runOk c then
      let r := runCmds env rest
      (c :: r.1, r.2)
    else ([c], false)

/-- The parsed CLI flags of `usb_tool.py`. -/
structure UsbArgs where
  list : Bool
  device : Option String
  format : Option String
  label : Option String
  repair : Bool
  scan_badblocks : Bool
  force : Bool

/-- Outcome of a `usb_tool.py` run: normal return or one of its error exits. -/
inductive UsbOutcome where
  | ok
  | errRoot
  | errNoDevice
  | errSanity (e : SanityError)
  | errUnsupportedFS
  | errCmdFailed
  | nothingToDo
deriving DecidableEq

/-- `usb_tool.main`: root check, list mode, device flag check, `sanity_check`,
then one of the format / repair / badblocks branches.  The first component is
the trace of external commands actually spawned, in order. -/
def usb_main (env : SysEnv) (cli : UsbArgs) : List (List String) × UsbOutcome :=
  if env.euidIsRoot = false then ([], .errRoot)
  else if cli.list then ([], .ok)
  else
    match cli.device with
    | none => ([], .errNoDevice)
    | some device =>
      match sanity_check env device cli.force with
      | .error e => ([], .errSanity e)
      | .ok _ =>
        match cli.format with
        | some fsname =>
          match fs_backend fsname with
          | .error _ => ([], .errUnsupportedFS)
          | .ok backend =>
            let part := device ++ "1"
            let r := runCmds env
              [["parted", "-s", device, "mklabel", "gpt"],
               ["parted", "-s", device, "mkpart", "primary", fsname, "1MiB", "100%"],
               ["partprobe", device],
               backend.formatCmd part cli.label]
            (r.1, if r.2 then .ok else .errCmdFailed)
        | none =>
          if cli.repair then
            let blkidCmd := ["blkid", "-o", "value", "-s", "TYPE", device]
            if env.runOk blkidCmd then
              match fs_backend (env.blkidType device) with
              | .error _ => ([blkidCmd], .errUnsupportedFS)
              | .ok backend =>
                let r := runCmds env [backend.repair_cmd ++ [device]]
                (blkidCmd :: r.1, if r.2 then .ok else .errCmdFailed)
            else ([blkidCmd], .errCmdFailed)
          else if cli.scan_badblocks then
            let r := runCmds env [["badblocks", "-wsv", device]]
            (r.1, if r.2 then .ok else .errCmdFailed)
          else ([], .nothingToDo)

/-! ### wipe-rich.py / secure-wipe-rich.py — the erase loops

`current_python_scripts/wipe-rich.py` (`wipe_target`, `main`) and
`secure-wipe-rich.py` (`wipe_one`, `main_wipe`) share the same control flow:
for each pass spawn `dd`, wait for it, and on a non-zero exit code print an
error and `break`; for each target that does not exist print an error and
`continue`; after the loop over targets unconditionally print a completion
message and return (so the interpreter exits with status 0).  Runs are
modelled as traces of the observable events below; the `dd` exit codes are an
environment function of the pass number. -/

/-- Observable events of a wipe run: spawning `dd` for a pass, its exit, the
per-pass error message, the missing-target error message, and the final
completion message. -/
inductive WEvent where
  | ddSpawn (target : String) (p : Nat)
  | ddExited (target : String) (p : Nat) (code : Int)
  | passFail (target : String) (p : Nat)
  | notFound (target : String)
  | doneMsg
deriving DecidableEq

/-- The pass loop `for p in range(1, passes+1): ... if returncode != 0: break`
shared by `wipe_target` and `wipe_one`, unrolled from pass `p` with `r`
iterations remaining. -/
def passLoop (t : String) (exitC : Nat → Int) : Nat → Nat → List WEvent
  | 0, _ => []
  | r + 1, p =>
    .ddSpawn t p :: .ddExited t p (exitC p) ::
      (if exitC p ≠ 0 then [.passFail t p] else passLoop t exitC r (p + 1))

/-- `wipe_target` of `current_python_scripts/wipe-rich.py`: run the pass loop
starting at pass 1 for (at most) `passes` passes. -/
def wipe_target (t : String) (exitC : Nat → Int) (passes : Nat) : List WEvent :=
  passLoop t exitC passes 1

/-- `wipe_one` of `secure-wipe-rich.py`: identical loop structure to
`wipe_target` (the two scripts differ only in message wording). -/
def wipe_one (t : String) (exitC : Nat → Int) (passes : Nat) : List WEvent :=
  passLoop t exitC passes 1

/-- The target loop of both mains: missing targets are reported and skipped
with `continue`, existing ones are wiped. -/
def targetLoop (pExists : String → Bool) (exitC : String → Nat → Int) (passes : Nat) :
    List String → List WEvent
  | [] => []
  | t :: ts =>
    (if pExists t then wipe_target t (exitC t) passes else [.notFound t]) ++
      targetLoop pExists exitC passes ts

/-- `main` of `current_python_scripts/wipe-rich.py` (and `main_wipe` of
`secure-wipe-rich.py`): `sys.exit(1)` unless root, otherwise process every
target, print the completion message, and fall off the end of `main`
(interpreter exit status 0).  Returns (exit status, event trace). -/
def mainWipe (euid : Nat) (pExists : String → Bool) (exitC : String → Nat → Int)
    (passes : Nat) (targets : List String) : Nat × List WEvent :=
  if euid ≠ 0 then (1, [])
  else (0, targetLoop pExists exitC passes targets ++ [.doneMsg])

/-- The pass numbers of the `dd` processes spawned in a trace, in order. -/
def spawns (tr : List WEvent) : List Nat :=
  tr.filterMap fun e => match e with | .ddSpawn _ p => some p | _ => none

/-! ### dcfldd-wrapper.py — block-count arithmetic and control flow -/

/-- The block-count arithmetic of `dcfldd-wrapper` (lines 168–173): an
explicit `-c` count is taken verbatim, otherwise
`bc`'s `($SIZE_BYTES + $BLOCKSIZE_BYTES - 1) / $BLOCKSIZE_BYTES`. -/
def BLOCK_COUNT (size_bytes bs : Nat) (count : Option Nat) : Nat :=
  match count with
  | some c => c
  | none => (size_bytes + bs - 1) / bs

/-- The `SIZE_BYTES` value after the same lines: overridden to
`BLOCK_COUNT * BLOCKSIZE_BYTES` when an explicit count is given, else the
observed source size. -/
def SIZE_BYTES_used (size_bytes bs : Nat) (count : Option Nat) : Nat :=
  match count with
  | some c => c * bs
  | none => size_bytes

/-- One invocation of `dcfldd-wrapper.sh` with its externally observable
inputs: CLI flags, the effective uid, whether the interactive prompt is
answered yes, and whether the spawned `dcfldd` exits successfully. -/
structure DcRun where
  input : String
  output : String
  verifyOnly : Bool
  blocksizeBytes : Nat
  count : Option Nat
  euid : Nat
  autoYes : Bool
  dryRun : Bool
  userConfirms : Bool
  ddExitOk : Bool

/-- Observable events of a `dcfldd-wrapper` run. -/
inductive DcEvent where
  | warnNotRoot
  | dryRunNotice
  | abortedByUser
  | execDcfldd (input output : String) (bs : Nat) (count : Option Nat)
  | reportWritten
deriving DecidableEq

/-- `dcfldd-wrapper.sh` control flow: the non-root case only emits a warning
(line 117) and execution continues; `--verify` rewires the output to
`/dev/null`; a zero block size is a fatal error; dry-run exits before any
copy; without `-y` the user must confirm; otherwise `dcfldd` is spawned and
on success the JSON report is written.  Returns (event trace, exit ok). -/
def dcfldd_wrapper (r : DcRun) : List DcEvent × Bool :=
  let warn : List DcEvent := if r.euid ≠ 0 then [.warnNotRoot] else []
  let output := if r.verifyOnly then "/dev/null" else r.output
  if r.blocksizeBytes = 0 then (warn, false)
  else if r.dryRun then (warn ++ [.dryRunNotice], true)
  else if r.autoYes = false ∧ r.userConfirms = false then (warn ++ [.abortedByUser], false)
  else
    (warn ++ [.execDcfldd r.input output r.blocksizeBytes r.count] ++
       (if r.ddExitOk then [.reportWritten] else []),
     r.ddExitOk)

/-! ### secure-wipe-rich.py / wipe-rich.py — numeric-expression parsing

`parse_size` and `parse_numeric` first run
`re.fullmatch(r"\s*([0-9+\-*/() ]+)([MmGg])?[iI]?[Bb]?\s*", value)` and then
evaluate group 1 with `ast.literal_eval(ast.parse(body, mode="eval"))`.
`literal_eval` accepts no binary arithmetic at all over this character set:
the only bodies it evaluates are integer literals (without leading zeros,
except an all-zero literal), optionally wrapped in balanced parentheses and
carrying at most one unary `+`/`-` — plus the empty tuple `()`, the single
non-numeric literal expressible with these characters.  The model below
implements exactly that fragment; evaluation failures (`SyntaxError`,
`ValueError`, …) and regex-match failures are all caught by the scripts and
re-raised as `argparse.ArgumentTypeError`, modelled uniformly as `none`. -/

/-- A Python value `literal_eval` can produce from a regex-accepted body:
an `int`, or the empty tuple (from bodies such as `()`). -/
inductive PyVal where
  | int (n : Int)
  | tuple
deriving DecidableEq

/-- Python `tuple * int = tuple` (repetition of the empty tuple), used by the
unit multiplication `number *= factor` in `parse_size`. -/
def pyMul (v : PyVal) (k : Nat) : PyVal :=
  match v with
  | .int n => .int (n * (k : Int))
  | .tuple => .tuple

/-- Tokens of the arithmetic bodies. -/
inductive Tok where
  | num (n : Nat)
  | plus
  | minus
  | times
  | div
  | lpar
  | rpar
deriving DecidableEq

/-- Numeric value of a digit run. -/
def digitsVal (ds : List Char) : Nat :=
  ds.foldl (fun a c => a * 10 + (c.toNat - '0'.toNat)) 0

/-- Fuel-indexed lexer over the regex body character set `0-9 + - * / ( )`
and space.  A digit run with a leading zero is a Python 3 `SyntaxError`
unless the whole run is zeros (`00` is legal, `007` is not).  Any other
character is a lex error.  The fuel is at least the input length, so the
`(0, _ :: _)` case is never reached. -/
def tokenizeAux : Nat → List Char → Option (List Tok)
  | _, [] => some []
  | 0, _ :: _ => none
  | fuel + 1, c :: cs =>
    if c = ' ' then tokenizeAux fuel cs
    else if c.isDigit then
      let ds := c :: cs.takeWhile Char.isDigit
      let rest := cs.dropWhile Char.isDigit
      if c = '0' ∧ ¬ ds.all (· = '0') then none
      else
        match tokenizeAux fuel rest with
        | some ts => some (.num (digitsVal ds) :: ts)
        | none => none
    else if c = '+' then (tokenizeAux fuel cs).map (.plus :: ·)
    else if c = '-' then (tokenizeAux fuel cs).map (.minus :: ·)
    else if c = '*' then (tokenizeAux fuel cs).map (.times :: ·)
    else if c = '/' then (tokenizeAux fuel cs).map (.div :: ·)
    else if c = '(' then (tokenizeAux fuel cs).map (.lpar :: ·)
    else if c = ')' then (tokenizeAux fuel cs).map (.rpar :: ·)
    else none

/-- Lex a body. -/
def tokenize (cs : List Char) : Option (List Tok) :=
  tokenizeAux (cs.length + 1) cs

/-- The expressions `ast.literal_eval` evaluates over these tokens: an
integer literal or the empty tuple, through arbitrarily many balanced
parentheses, with at most one unary sign overall (CPython's
`_convert_signed_num` rejects nested unary operators, and a sign on a tuple).
The flag records whether a sign may still occur.  Returns the value and the
unconsumed tokens; anything else — in particular every binary operation, which
`literal_eval` rejects unless its right operand is complex — is `none`. -/
def pExpr : Bool → List Tok → Option (PyVal × List Tok)
  | _, .num n :: ts => some (.int n, ts)
  | _, .lpar :: .rpar :: ts => some (.tuple, ts)
  | signOK, .lpar :: ts =>
    match pExpr signOK ts with
    | some (v, .rpar :: ts') => some (v, ts')
    | _ => none
  | true, .plus :: ts =>
    match pExpr false ts with
    | some (.int n, ts') => some (.int n, ts')
    | _ => none
  | true, .minus :: ts =>
    match pExpr false ts with
    | some (.int n, ts') => some (.int (-n), ts')
    | _ => none
  | _, _ => none

/-- `ast.literal_eval(ast.parse(body, mode="eval"))` on a regex-accepted
body: lex it and require a single literal expression consuming all tokens.
An empty or blank body is a parse error. -/
def literalEvalBody (body : List Char) : Option PyVal :=
  match tokenize body with
  | none => none
  | some ts =>
    match pExpr true ts with
    | some (v, []) => some v
    | _ => none

/-- Python `\s` (ASCII range) as used by the size regex. -/
def isPySpace (c : Char) : Bool :=
  c = ' ' ∨ c = '\t' ∨ c = '\n' ∨ c = '\r' ∨ c = '\x0b' ∨ c = '\x0c'

/-- The regex body character class `[0-9+\-*/() ]`. -/
def bodyChars : List Char := "0123456789+-*/() ".toList

/-- `re.fullmatch(r"\s*([0-9+\-*/() ]+)([MmGg])?[iI]?[Bb]?\s*", value)`,
returning (group 1, group 2) on a match.  Decomposed from the right: strip
the trailing `\s*`, then the optional `[Bb]`, `[iI]` and `[MmGg]` characters
in that order; the greedy leading `\s*` takes every leading whitespace
character, and what remains must be a non-empty run of body characters.
(When Python's greedy match would hand a pure-whitespace group 1 to
`ast.parse`, the parse fails, so returning `none` for an empty remainder is
observationally equal.) -/
def matchSize (s : String) : Option (List Char × Option Char) :=
  let r0 := s.toList.reverse.dropWhile isPySpace
  let r1 := match r0 with
    | c :: t => if c = 'b' ∨ c = 'B' then t else c :: t
    | [] => []
  let r2 := match r1 with
    | c :: t => if c = 'i' ∨ c = 'I' then t else c :: t
    | [] => []
  let sp := match r2 with
    | c :: t => if c = 'M' ∨ c = 'm' ∨ c = 'G' ∨ c = 'g' then (some c, t) else (none, c :: t)
    | [] => (none, [])
  let body := sp.2.reverse.dropWhile isPySpace
  if body ≠ [] ∧ body.all (· ∈ bodyChars) then some (body, sp.1) else none

/-- `parse_size` of `secure-wipe-rich.py`: regex match, `literal_eval`, then
multiply by `1024**2` for an `m`/`M` suffix and `1024**3` otherwise (`g`/`G`).
There is no positivity or type check on the evaluated value. -/
def parse_size (value : String) : Option PyVal := do
  let (body, unit) ← matchSize value
  let number ← literalEvalBody body
  match unit with
  | none => some number
  | some u => if u = 'm' ∨ u = 'M' then some (pyMul number (1024 ^ 2))
              else some (pyMul number (1024 ^ 3))

/-- `parse_numeric` of `current_python_scripts/wipe-rich.py`: same regex and
evaluation, but `not isinstance(value, int) or value < 1` is rejected before
the suffix factor is applied. -/
def parse_numeric (expr : String) : Option PyVal := do
  let (body, suff) ← matchSize expr
  let value ← literalEvalBody body
  match value with
  | .tuple => none
  | .int n =>
    if n < 1 then none
    else
      match suff with
      | none => some (.int n)
      | some u => if u = 'm' ∨ u = 'M' then some (pyMul (.int n) (1024 ^ 2))
                  else some (pyMul (.int n) (1024 ^ 3))

/-- `parse_passes` of `secure-wipe-rich.py`: no regex — the raw string goes
to `ast.parse`/`literal_eval` — then reject non-`int` results and values
below 1.  (Modelled on the decimal-arithmetic fragment; literals outside it,
such as hex, are not expressible in the claims' `<arithmetic>[M|G]` forms.) -/
def parse_passes (value : String) : Option Int := do
  let v ← literalEvalBody value.toList
  match v with
  | .tuple => none
  | .int n => if n < 1 then none else some n

/-- The byte factor a suffix group applies: 1 for none, `1024**2 = 2^20` for
`m`/`M`, `1024**3 = 2^30` for `g`/`G`. -/
def unitFactor (u : Option Char) : Nat :=
  match u with
  | none => 1
  | some c => if c = 'm' ∨ c = 'M' then 1024 ^ 2 else 1024 ^ 3

/-- A concrete non-root invocation of the dcfldd wrapper. -/
def dcNonRootRun : DcRun where
  input := "/dev/sdb"
  output := "sdb.dd"
  verifyOnly := false
  blocksizeBytes := 1048576
  count := none
  euid := 1000
  autoYes := true
  dryRun := false
  userConfirms := false
  ddExitOk := true

/-- A non-root environment for `usb_tool.py`. -/
def envNonRoot : SysEnv where
  udevDisks := []
  fsPaths := []
  euidIsRoot := false
  runOk := fun _ => true
  blkidType := fun _ => "ext4"

/-- A format request for `usb_tool.py` against `/dev/sdb`. -/
def argsFormatSdb : UsbArgs where
  list := false
  device := some "/dev/sdb"
  format := some "fat32"
  label := none
  repair := false
  scan_badblocks := false
  force := false

/-- Well-formed host state: every device node reported by the udev inventory
exists on the filesystem and is a `/dev/` path (true of Linux block-device
nodes). -/
abbrev invWF (env : SysEnv) : Prop :=
  ∀ d ∈ list_block_devices env, d.name ∈ env.fsPaths ∧ pyStartswith d.name "/dev/" = true

/-- The Safety-Gate scenario host: one removable USB stick at `/dev/sdX`. -/
def envSdX : SysEnv where
  udevDisks := [{ device_node := "/dev/sdX", id_type := "disk", id_model := "Stick",
                  size_sectors := 1000, removable_attr := 1, id_bus := "usb" }]
  fsPaths := ["/dev/sdX"]
  euidIsRoot := true
  runOk := fun _ => true
  blkidType := fun _ => "vfat"

/-- A host with one non-removable ATA disk at `/dev/sdb`. -/
def envSdbFixed : SysEnv where
  udevDisks := [{ device_node := "/dev/sdb", id_type := "disk", id_model := "Internal",
                  size_sectors := 1000, removable_attr := 0, id_bus := "ata" }]
  fsPaths := ["/dev/sdb"]
  euidIsRoot := true
  runOk := fun _ => true
  blkidType := fun _ => "ext4"

/-! ## Claims -/

/-- C5: for a RawImage run, `dcfldd-wrapper` uses
`ceil(sourceSizeBytes / blockSizeBytes)` blocks when no explicit count is
supplied (characterised as the least multiple of `bs` covering `size`), and
an explicit block count is used verbatim with the total size recomputed as
`count * bs` independently of the observed source size. -/
theorem c5_block_count_arithmetic (size bs : Nat) (h : 0 < bs) :
    (size ≤ BLOCK_COUNT size bs none * bs ∧ BLOCK_COUNT size bs none * bs < size + bs) ∧
      ∀ c : Nat, BLOCK_COUNT size bs (some c) = c ∧ SIZE_BYTES_used size bs (some c) = c * bs := by
  refine ⟨?_, fun c => ⟨rfl, rfl⟩⟩
  have hdm : bs * ((size + bs - 1) / bs) + (size + bs - 1) % bs = size + bs - 1 :=
    Nat.div_add_mod _ _
  have hml : (size + bs - 1) % bs < bs := Nat.mod_lt _ h
  have hcomm : bs * ((size + bs - 1) / bs) = ((size + bs - 1) / bs) * bs := Nat.mul_comm _ _
  simp only [BLOCK_COUNT]
  omega

/-- Witness for C5 at `size = 10`, `bs = 4`: three blocks cover ten bytes. -/
theorem c5_block_count_arithmetic_witness :
    10 ≤ BLOCK_COUNT 10 4 none * 4 ∧ BLOCK_COUNT 10 4 none * 4 < 10 + 4 :=
  (c5_block_count_arithmetic 10 4 (by decide)).1

/-- `FS_TABLE` lookup, characterised key by key. -/
theorem lookup_FS_TABLE (k : String) :
    FS_TABLE.lookup k =
      if k = "fat32" then some FAT32Backend
      else if k = "ext4" then some EXT4Backend
      else if k = "ntfs" then some NTFSBackend
      else none := by
  simp only [FS_TABLE, List.map, List.lookup, FAT32Backend, EXT4Backend, NTFSBackend]
  repeat' split
  all_goals simp_all [beq_iff_eq, FAT32Backend, EXT4Backend, NTFSBackend]

/-- C6: `fs_backend` resolution is case-insensitive, and it fails with the
"Unsupported filesystem" exit exactly when the lower-cased kind is not one of
the registered kinds fat32, ext4, ntfs. -/
theorem c6_registry_resolution :
    fs_backend "FAT32" = fs_backend "fat32" ∧
      ∀ s : String, (∃ e, fs_backend s = .error e) ↔
        pyLower s ∉ ["fat32", "ext4", "ntfs"] := by
  constructor
  · have h1 : pyLower "FAT32" = "fat32" := by decide
    have h2 : pyLower "fat32" = "fat32" := by decide
    rw [fs_backend, fs_backend, h1, h2, lookup_FS_TABLE]
    simp
  · intro s
    rw [fs_backend, lookup_FS_TABLE]
    by_cases h1 : pyLower s = "fat32" <;> by_cases h2 : pyLower s = "ext4" <;>
      by_cases h3 : pyLower s = "ntfs" <;>
      simp [h1, h2, h3]

/-- Multiplying by a unit factor of 1 is the identity, also on the tuple. -/
theorem pyMul_one (w : PyVal) : pyMul w 1 = w := by
  cases w <;> simp [pyMul]

/-- C2, counterexample: the block-size parser `parse_size` of
`secure-wipe-rich.py` accepts `"0M"` and returns 0 — a parsed value that is
not a positive integer, contradicting the claim that every accepted
`<arithmetic>[M|G]` expression parses to a positive integer. -/
theorem c2_counterexample : parse_size "0M" = some (.int 0) ∧ ¬ (1 : Int) ≤ 0 := by
  constructor
  · rfl
  · decide

/-- C2, amended: accepted expressions parse to `literal_eval(body)` times the
suffix factor, and the factor is always 1, 2^20 or 2^30; `parse_numeric` and
`parse_passes` guarantee a positive integer result, but `parse_size` performs
no positivity (or integer-type) check; regex-rejected strings are always
errors. -/
theorem c2_numeric_expression_parsing :
    (∀ s v, parse_numeric s = some v →
      ∃ body u n, matchSize s = some (body, u) ∧ literalEvalBody body = some (.int n) ∧
        1 ≤ n ∧ v = .int (n * (unitFactor u : Int)) ∧ (1 : Int) ≤ n * (unitFactor u : Int)) ∧
    (∀ s n, parse_passes s = some n → 1 ≤ n) ∧
    (∀ s v, parse_size s = some v →
      ∃ body u w, matchSize s = some (body, u) ∧ literalEvalBody body = some w ∧
        v = pyMul w (unitFactor u)) ∧
    (∀ u, unitFactor u = 1 ∨ unitFactor u = 2 ^ 20 ∨ unitFactor u = 2 ^ 30) ∧
    (∀ s, matchSize s = none → parse_size s = none ∧ parse_numeric s = none) := by
  refine ⟨?_, ?_, ?_, ?_, ?_⟩
  · intro s v h
    simp only [parse_numeric, bind, Option.bind_eq_some] at h
    obtain ⟨⟨body, u⟩, hm, value, hl, h⟩ := h
    dsimp only at hl h
    cases value with
    | tuple => cases h
    | int n =>
      dsimp only at h
      by_cases hn : n < 1
      · rw [if_pos hn] at h; cases h
      · rw [if_neg hn] at h
        push_neg at hn
        cases u with
        | none =>
          dsimp only at h
          injection h with h'
          subst h'
          exact ⟨body, none, n, hm, hl, hn, by simp [unitFactor], by simpa [unitFactor] using hn⟩
        | some c =>
          dsimp only at h
          by_cases hc : c = 'm' ∨ c = 'M'
          · rw [if_pos hc] at h
            injection h with h'
            subst h'
            refine ⟨body, some c, n, hm, hl, hn, ?_, ?_⟩
            · simp [unitFactor, pyMul, if_pos hc]
            · simp only [unitFactor, if_pos hc]
              push_cast
              omega
          · rw [if_neg hc] at h
            injection h with h'
            subst h'
            refine ⟨body, some c, n, hm, hl, hn, ?_, ?_⟩
            · simp [unitFactor, pyMul, if_neg hc]
            · simp only [unitFactor, if_neg hc]
              push_cast
              omega
  · intro s n h
    simp only [parse_passes, bind, Option.bind_eq_some] at h
    obtain ⟨w, hl, h⟩ := h
    cases w with
    | tuple => cases h
    | int m =>
      dsimp only at h
      by_cases hm : m < 1
      · rw [if_pos hm] at h; cases h
      · rw [if_neg hm] at h
        injection h with h'
        omega
  · intro s v h
    simp only [parse_size, bind, Option.bind_eq_some] at h
    obtain ⟨⟨body, u⟩, hm, w, hl, h⟩ := h
    dsimp only at hl h
    refine ⟨body, u, w, hm, hl, ?_⟩
    cases u with
    | none =>
      dsimp only at h
      injection h with h'
      subst h'
      exact (pyMul_one w).symm
    | some c =>
      dsimp only at h
      by_cases hc : c = 'm' ∨ c = 'M'
      · rw [if_pos hc] at h
        injection h with h'
        subst h'
        simp [unitFactor, if_pos hc]
      · rw [if_neg hc] at h
        injection h with h'
        subst h'
        simp [unitFactor, if_neg hc]
  · intro u
    cases u with
    | none => exact Or.inl rfl
    | some c =>
      by_cases hc : c = 'm' ∨ c = 'M'
      · exact Or.inr (Or.inl (by simp [unitFactor, if_pos hc]))
      · exact Or.inr (Or.inr (by simp [unitFactor, if_neg hc]))
  · intro s h
    constructor <;> simp [parse_size, parse_numeric, h, bind]

/-- Witness for C2 at `"4M"`: `parse_numeric` accepts it, the body evaluates
to 4, the factor is 2^20, and the result 4194304 is positive. -/
theorem c2_numeric_expression_parsing_witness :
    ∃ body u n, matchSize "4M" = some (body, u) ∧ literalEvalBody body = some (.int n) ∧
      1 ≤ n ∧ PyVal.int 4194304 = .int (n * (unitFactor u : Int)) ∧
      (1 : Int) ≤ n * (unitFactor u : Int) :=
  c2_numeric_expression_parsing.1 "4M" (.int 4194304) rfl

/-- C7, counterexample: `dcfldd-wrapper.sh` run without root privilege (euid
1000) still spawns `dcfldd` against the device and finishes with a successful
status — it does not refuse with a PermissionError-style exit (line 117 only
warns), contradicting the claim for this destructive operation. -/
theorem c7_counterexample :
    DcEvent.execDcfldd "/dev/sdb" "sdb.dd" 1048576 none ∈ (dcfldd_wrapper dcNonRootRun).1 ∧
      (dcfldd_wrapper dcNonRootRun).2 = true := by
  constructor
  · decide
  · rfl

/-- C3, counterexample: running the erase command as root on one existing
target whose single `dd` pass exits with code 1 still yields process exit
status 0, although the trace records the failed pass — contradicting "exit 0
only if all passes complete". -/
theorem c3_counterexample :
    (mainWipe 0 (fun _ => true) (fun _ _ => 1) 1 ["/dev/sdb"]).1 = 0 ∧
      WEvent.passFail "/dev/sdb" 1 ∈ (mainWipe 0 (fun _ => true) (fun _ _ => 1) 1 ["/dev/sdb"]).2 := by
  constructor
  · rfl
  · decide

/-- C3, amended: the erase command's exit status is independent of pass
failures and missing targets — it is 1 when not run as root and 0 otherwise;
failures are only reported on the console. -/
theorem c3_exit_status (euid : Nat) (pE : String → Bool) (exitC : String → Nat → Int)
    (passes : Nat) (targets : List String) :
    (mainWipe euid pE exitC passes targets).1 = if euid = 0 then 0 else 1 := by
  unfold mainWipe
  by_cases h : euid = 0 <;> simp [h]

/-- C7, amended: `usb_tool.py` and the wipe scripts refuse to proceed without
root privilege before any device access (empty command trace, immediate error
exit), but `dcfldd-wrapper.sh` only prints a warning first and, if confirmed,
proceeds to spawn `dcfldd` anyway. -/
theorem c7_privilege_gate :
    (∀ env cli, env.euidIsRoot = false → usb_main env cli = ([], .errRoot)) ∧
    (∀ euid pE exitC passes targets, euid ≠ 0 →
        mainWipe euid pE exitC passes targets = (1, [])) ∧
    (∀ r : DcRun, r.euid ≠ 0 →
        (dcfldd_wrapper r).1.head? = some .warnNotRoot ∧
        (r.blocksizeBytes ≠ 0 → r.dryRun = false → r.autoYes = true →
          DcEvent.execDcfldd r.input (if r.verifyOnly then "/dev/null" else r.output)
              r.blocksizeBytes r.count ∈ (dcfldd_wrapper r).1)) := by
  refine ⟨?_, ?_, ?_⟩
  · intro env cli h
    unfold usb_main
    rw [h]
    simp
  · intro euid pE exitC passes targets h
    unfold mainWipe
    simp [h]
  · intro r h
    unfold dcfldd_wrapper
    constructor
    · simp only [if_pos h]
      split_ifs <;> simp
    · intro hbs hdry hyes
      simp only [if_pos h, hdry, hyes]
      rw [if_neg hbs]
      simp

/-- Witness for C7: the non-root `usb_tool.py` format request exits with the
root error and runs no external command. -/
theorem c7_privilege_gate_witness :
    usb_main envNonRoot argsFormatSdb = ([], .errRoot) :=
  c7_privilege_gate.1 _ _ rfl

/-- C9: `sanity_check` with `force = true` still exits with an error when the
device path does not exist or does not start with `/dev/` — force bypasses
only the removability check (third conjunct: with both checks passing, force
always authorizes). -/
theorem c9_force_does_not_bypass_path_checks (env : SysEnv) (device : String) (force : Bool) :
    (device ∉ env.fsPaths → sanity_check env device force = .error .notExist) ∧
    (device ∈ env.fsPaths → pyStartswith device "/dev/" = false →
        sanity_check env device force = .error .notDevPath) ∧
    (device ∈ env.fsPaths → pyStartswith device "/dev/" = true →
        sanity_check env device true = .ok ()) := by
  refine ⟨?_, ?_, ?_⟩
  · intro h1
    unfold sanity_check
    rw [if_neg h1]
  · intro h1 h2
    unfold sanity_check
    rw [if_pos h1, if_neg (by simp [h2])]
  · intro h1 h2
    unfold sanity_check
    rw [if_pos h1, if_pos h2, if_neg (by simp)]

/-- Witness for C9: a nonexistent path and an existing path outside `/dev`
are both rejected even with `force = true`. -/
theorem c9_force_does_not_bypass_path_checks_witness :
    sanity_check envNonRoot "/dev/sdb" true = .error .notExist ∧
      sanity_check { envNonRoot with fsPaths := ["/tmp/img"] } "/tmp/img" true =
        .error .notDevPath := by
  constructor
  · exact (c9_force_does_not_bypass_path_checks envNonRoot "/dev/sdb" true).1 (by decide)
  · exact (c9_force_does_not_bypass_path_checks _ "/tmp/img" true).2.1 (by decide) (by decide)

/-- C1: when every inventory entry named `device` is non-removable,
`sanity_check` without force fails and a `usb_tool.py` run on that device
executes no external (hence no destructive) command; and with `force = true`
authorization succeeds for any device present in the inventory of a
well-formed host, regardless of removability. -/
theorem c1_safety_gate (env : SysEnv) (device : String) :
    ((∀ d ∈ list_block_devices env, d.name = device → d.removable = false) →
      (∃ e, sanity_check env device false = .error e) ∧
      (∀ cli : UsbArgs, cli.list = false → cli.device = some device → cli.force = false →
        (usb_main env cli).1 = [])) ∧
    (invWF env → (∃ d ∈ list_block_devices env, d.name = device) →
      sanity_check env device true = .ok ()) := by
  constructor
  · intro hrem
    have herr : ∃ e, sanity_check env device false = .error e := by
      unfold sanity_check
      by_cases h1 : device ∈ env.fsPaths
      · rw [if_pos h1]
        by_cases h2 : pyStartswith device "/dev/" = true
        · rw [if_pos h2]
          have hany :
              ((list_block_devices env).any fun d => d.name == device && d.removable) = false := by
            rw [List.any_eq_false]
            intro d hd
            simp only [Bool.and_eq_true, beq_iff_eq, not_and]
            intro hn
            simp [hrem d hd hn]
          rw [if_pos (by simp [hany])]
          exact ⟨.notRemovable, rfl⟩
        · rw [if_neg h2]
          exact ⟨.notDevPath, rfl⟩
      · rw [if_neg h1]
        exact ⟨.notExist, rfl⟩
    refine ⟨herr, ?_⟩
    intro cli hlist hdev hforce
    obtain ⟨e, he⟩ := herr
    unfold usb_main
    by_cases hr : env.euidIsRoot = false
    · rw [if_pos hr]
    · rw [if_neg hr, if_neg (by simp [hlist]), hdev]
      dsimp only
      rw [hforce, he]
  · intro hwf ⟨d, hd, hname⟩
    obtain ⟨hmem, hsw⟩ := hwf d hd
    rw [hname] at hmem hsw
    unfold sanity_check
    rw [if_pos hmem, if_pos hsw, if_neg (by simp)]

/-- Witness for C1: the fixed disk is rejected without force, the removable
stick is authorized with force. -/
theorem c1_safety_gate_witness :
    (∃ e, sanity_check envSdbFixed "/dev/sdb" false = .error e) ∧
      sanity_check envSdX "/dev/sdX" true = .ok () := by
  constructor
  · exact ((c1_safety_gate envSdbFixed "/dev/sdb").1 (by decide)).1
  · exact (c1_safety_gate envSdX "/dev/sdX").2 (by decide) (by decide)

/-- When every external command succeeds, `runCmds` executes the whole list. -/
theorem runCmds_all_ok (env : SysEnv) (h : ∀ c, env.runOk c = true) :
    ∀ l, runCmds env l = (l, true) := by
  intro l
  induction l with
  | nil => rfl
  | cons c rest ih =>
    unfold runCmds
    rw [h c, if_pos rfl, ih]

/-- C8: a Format request that passes the Safety Gate first repartitions the
device (gpt label, one whole-device `1MiB`–`100%` primary partition,
partprobe) and then invokes the resolved backend's format command on the
derived partition with the optional label substituted. -/
theorem c8_format_flow (env : SysEnv) (device fsname : String) (label : Option String)
    (backend : FSBackend) (r s f : Bool)
    (hroot : env.euidIsRoot = true)
    (hsan : sanity_check env device f = .ok ())
    (hfs : fs_backend fsname = .ok backend)
    (hrun : ∀ c, env.runOk c = true) :
    usb_main env
        { list := false, device := some device, format := some fsname, label := label,
          repair := r, scan_badblocks := s, force := f } =
      ([["parted", "-s", device, "mklabel", "gpt"],
        ["parted", "-s", device, "mkpart", "primary", fsname, "1MiB", "100%"],
        ["partprobe", device],
        backend.formatCmd (device ++ "1") label],
       .ok) := by
  unfold usb_main
  rw [if_neg (by simp [hroot])]
  dsimp only
  rw [hsan, hfs]
  dsimp only
  rw [runCmds_all_ok env hrun]
  simp

/-- Witness for C8 — the spec's scenario: formatting removable `/dev/sdX` as
fat32 with label DATA runs the repartition commands and then
`mkfs.fat -F 32 -n DATA /dev/sdX1`, completing successfully. -/
theorem c8_format_flow_witness :
    usb_main envSdX
        { list := false, device := some "/dev/sdX", format := some "fat32",
          label := some "DATA", repair := false, scan_badblocks := false, force := false } =
      ([["parted", "-s", "/dev/sdX", "mklabel", "gpt"],
        ["parted", "-s", "/dev/sdX", "mkpart", "primary", "fat32", "1MiB", "100%"],
        ["partprobe", "/dev/sdX"],
        ["mkfs.fat", "-F", "32", "-n", "DATA", "/dev/sdX1"]],
       .ok) := by
  have h := c8_format_flow envSdX "/dev/sdX" "fat32" (some "DATA") FAT32Backend false false false
    rfl rfl rfl (fun c => rfl)
  simpa [FSBackend.formatCmd, FAT32Backend] using h

/-- When every pass from `p` on succeeds, the pass loop spawns exactly the
passes `p, p+1, …` for its remaining iteration count. -/
theorem spawns_passLoop_ok (t : String) (exitC : Nat → Int) :
    ∀ r p, (∀ q, p ≤ q → q < p + r → exitC q = 0) →
      spawns (passLoop t exitC r p) = List.range' p r := by
  intro r
  induction r with
  | zero => intro p _; rfl
  | succ r ih =>
    intro p h
    have h0 : exitC p = 0 := h p le_rfl (by omega)
    unfold passLoop
    rw [if_neg (by simp [h0])]
    have hs : spawns (WEvent.ddSpawn t p :: WEvent.ddExited t p (exitC p) ::
        passLoop t exitC r (p + 1)) = p :: spawns (passLoop t exitC r (p + 1)) := rfl
    rw [hs, ih (p + 1) (fun q hq1 hq2 => h q (by omega) (by omega)),
      List.range'_succ p r 1]

/-- When pass `k` is the first failing pass in range, the pass loop spawns
exactly the passes up to and including `k`. -/
theorem spawns_passLoop_fail (t : String) (exitC : Nat → Int) :
    ∀ r p k, p ≤ k → k < p + r → exitC k ≠ 0 → (∀ j, p ≤ j → j < k → exitC j = 0) →
      spawns (passLoop t exitC r p) = List.range' p (k + 1 - p) := by
  intro r
  induction r with
  | zero => intro p k h1 h2; omega
  | succ r ih =>
    intro p k h1 h2 hk hsucc
    unfold passLoop
    by_cases hpk : p = k
    · subst hpk
      rw [if_pos (by simp [hk])]
      have hs : spawns [WEvent.ddSpawn t p, WEvent.ddExited t p (exitC p), WEvent.passFail t p] =
          [p] := rfl
      rw [hs, show p + 1 - p = 1 by omega]
      rfl
    · have hplt : p < k := by omega
      have h0 : exitC p = 0 := hsucc p le_rfl hplt
      rw [if_neg (by simp [h0])]
      have hs : spawns (WEvent.ddSpawn t p :: WEvent.ddExited t p (exitC p) ::
          passLoop t exitC r (p + 1)) = p :: spawns (passLoop t exitC r (p + 1)) := rfl
      rw [hs, ih (p + 1) k (by omega) (by omega) hk (fun j hj1 hj2 => hsucc j (by omega) hj2)]
      rw [show k + 1 - p = (k + 1 - (p + 1)) + 1 by omega, List.range'_succ p _ 1]

/-- Any spawn event in the pass loop is either its very first event or is
preceded by the exit event of the previous pass. -/
theorem passLoop_split (t : String) (exitC : Nat → Int) :
    ∀ r p l1 l2 m, passLoop t exitC r p = l1 ++ .ddSpawn t m :: l2 →
      (m = p ∧ l1 = []) ∨ .ddExited t (m - 1) (exitC (m - 1)) ∈ l1 := by
  intro r
  induction r with
  | zero =>
    intro p l1 l2 m h
    cases l1 <;> simp [passLoop] at h
  | succ r ih =>
    intro p l1 l2 m h
    unfold passLoop at h
    cases l1 with
    | nil =>
      simp only [List.nil_append, List.cons.injEq] at h
      obtain ⟨h1, _⟩ := h
      cases h1
      exact Or.inl ⟨rfl, rfl⟩
    | cons a l1' =>
      simp only [List.cons_append, List.cons.injEq] at h
      obtain ⟨ha, h⟩ := h
      cases l1' with
      | nil =>
        simp only [List.nil_append, List.cons.injEq] at h
        obtain ⟨h1, _⟩ := h
        cases h1
      | cons b l1'' =>
        simp only [List.cons_append, List.cons.injEq] at h
        obtain ⟨hb, h⟩ := h
        by_cases hc : exitC p ≠ 0
        · rw [if_pos hc] at h
          cases l1'' with
          | nil => simp at h
          | cons c' l3 =>
            simp only [List.cons_append, List.cons.injEq] at h
            obtain ⟨hc', h⟩ := h
            cases l3 <;> simp at h
        · rw [if_neg hc] at h
          rcases ih (p + 1) l1'' l2 m h with ⟨hm, hl⟩ | hmem
          · subst hm
            subst hl
            subst ha
            subst hb
            right
            simp
          · subst ha
            subst hb
            right
            exact List.mem_cons_of_mem _ (List.mem_cons_of_mem _ hmem)

/-- C4: for a SecureErase of N passes, the pass loop of
`wipe_target`/`wipe_one` spawns exactly the passes 1..N in order when all
succeed; exactly 1..k when pass k is the first to fail (pass k+1 never
starts); every spawn of pass p+1 is preceded in the trace by the exit of
pass p's process; and `wipe_one` of `secure-wipe-rich.py` has the identical
behaviour. -/
theorem c4_sequential_passes (t : String) (exitC : Nat → Int) (N : Nat) :
    ((∀ p, 1 ≤ p → p ≤ N → exitC p = 0) → spawns (wipe_target t exitC N) = List.range' 1 N) ∧
    (∀ k, 1 ≤ k → k ≤ N → exitC k ≠ 0 → (∀ j, 1 ≤ j → j < k → exitC j = 0) →
        spawns (wipe_target t exitC N) = List.range' 1 k) ∧
    (∀ p l1 l2, 1 ≤ p → wipe_target t exitC N = l1 ++ .ddSpawn t (p + 1) :: l2 →
        .ddExited t p (exitC p) ∈ l1) ∧
    wipe_one t exitC N = wipe_target t exitC N := by
  refine ⟨?_, ?_, ?_, rfl⟩
  · intro h
    exact spawns_passLoop_ok t exitC N 1 (fun q hq1 hq2 => h q hq1 (by omega))
  · intro k h1 h2 hk hsucc
    have hf := spawns_passLoop_fail t exitC N 1 k h1 (by omega) hk
      (fun j hj1 hj2 => hsucc j hj1 hj2)
    rwa [show k + 1 - 1 = k by omega] at hf
  · intro p l1 l2 hp h
    rcases passLoop_split t exitC N 1 l1 l2 (p + 1) h with ⟨hm, _⟩ | hmem
    · omega
    · rwa [show p + 1 - 1 = p by omega] at hmem

/-- Witness for C4: three successful passes spawn passes 1,2,3; a failure at
pass 2 of 3 spawns only passes 1,2. -/
theorem c4_sequential_passes_witness :
    spawns (wipe_target "/dev/sdb" (fun _ => 0) 3) = List.range' 1 3 ∧
      spawns (wipe_target "/dev/sdc" (fun p => if p = 2 then 1 else 0) 3) = List.range' 1 2 := by
  constructor
  · exact (c4_sequential_passes "/dev/sdb" (fun _ => 0) 3).1 (fun p _ _ => rfl)
  · exact (c4_sequential_passes "/dev/sdc" (fun p => if p = 2 then 1 else 0) 3).2.1 2
      (by decide) (by decide) (by decide) (by decide)

/-- A spawn event in a pass loop always carries the loop's own target. -/
theorem spawn_mem_passLoop_target (t t' : String) (exitC : Nat → Int) :
    ∀ r q p, WEvent.ddSpawn t' p ∈ passLoop t exitC r q → t' = t := by
  intro r
  induction r with
  | zero => intro q p h; simp [passLoop] at h
  | succ r ih =>
    intro q p h
    unfold passLoop at h
    simp only [List.mem_cons] at h
    rcases h with h | h | h
    · cases h; rfl
    · cases h
    · by_cases hc : exitC q ≠ 0
      · rw [if_pos hc] at h
        simp at h
      · rw [if_neg hc] at h
        exact ih (q + 1) p h

/-- Run as root, the erase main processes the targets and appends the
completion message. -/
theorem mainWipe_root_eq (pE : String → Bool) (exitC : String → Nat → Int)
    (passes : Nat) (targets : List String) :
    mainWipe 0 pE exitC passes targets =
      (0, targetLoop pE exitC passes targets ++ [.doneMsg]) := by
  unfold mainWipe
  simp

/-- With at least one pass requested, the pass loop starts with pass 1. -/
theorem spawn_one_mem_passLoop (t : String) (exitC : Nat → Int) (r : Nat) (h : 0 < r) :
    WEvent.ddSpawn t 1 ∈ passLoop t exitC r 1 := by
  cases r with
  | zero => omega
  | succ r => unfold passLoop; exact List.mem_cons_self _ _

/-- A missing target's error message is in the target-loop trace. -/
theorem notFound_mem_targetLoop (pE : String → Bool) (exitC : String → Nat → Int)
    (passes : Nat) (t : String) (hf : pE t = false) :
    ∀ targets : List String, t ∈ targets →
      WEvent.notFound t ∈ targetLoop pE exitC passes targets := by
  intro targets
  induction targets with
  | nil => intro h; cases h
  | cons t' ts ih =>
    intro ht
    unfold targetLoop
    rcases List.mem_cons.mp ht with rfl | hts
    · rw [if_neg (by simp [hf])]
      exact List.mem_append_left _ (List.mem_cons_self _ _)
    · exact List.mem_append_right _ (ih hts)

/-- No `dd` is ever spawned for a missing target. -/
theorem spawn_not_mem_targetLoop (pE : String → Bool) (exitC : String → Nat → Int)
    (passes : Nat) (t : String) (hf : pE t = false) :
    ∀ (targets : List String) (p : Nat),
      WEvent.ddSpawn t p ∉ targetLoop pE exitC passes targets := by
  intro targets
  induction targets with
  | nil => intro p h; cases h
  | cons t' ts ih =>
    intro p h
    unfold targetLoop at h
    rcases List.mem_append.mp h with hseg | hrest
    · by_cases he : pE t' = true
      · rw [if_pos he] at hseg
        have ht := spawn_mem_passLoop_target t' t (exitC t') passes 1 p hseg
        subst ht
        rw [hf] at he
        cases he
      · rw [if_neg he] at hseg
        simp at hseg
    · exact ih p hrest

/-- Every existing target in the list gets its first pass spawned. -/
theorem spawn_one_mem_targetLoop (pE : String → Bool) (exitC : String → Nat → Int)
    (passes : Nat) (hp : 0 < passes) (t : String) (he : pE t = true) :
    ∀ targets : List String, t ∈ targets →
      WEvent.ddSpawn t 1 ∈ targetLoop pE exitC passes targets := by
  intro targets
  induction targets with
  | nil => intro h; cases h
  | cons t' ts ih =>
    intro ht
    unfold targetLoop
    rcases List.mem_cons.mp ht with rfl | hts
    · rw [if_pos he]
      exact List.mem_append_left _ (spawn_one_mem_passLoop t (exitC t) passes hp)
    · exact List.mem_append_right _ (ih hts)

/-- C10: with multiple erase targets, a nonexistent target is reported with
an error event and skipped (no `dd` ever spawned for it) without aborting the
run — every existing target still gets its passes — and the completion
message is unconditionally the last event of the trace. -/
theorem c10_missing_target_skipped (pE : String → Bool) (exitC : String → Nat → Int)
    (passes : Nat) (targets : List String) :
    ((mainWipe 0 pE exitC passes targets).2.getLast? = some .doneMsg) ∧
    (∀ t ∈ targets, pE t = false →
        .notFound t ∈ (mainWipe 0 pE exitC passes targets).2 ∧
        ∀ p, .ddSpawn t p ∉ (mainWipe 0 pE exitC passes targets).2) ∧
    (∀ t ∈ targets, pE t = true → 0 < passes →
        .ddSpawn t 1 ∈ (mainWipe 0 pE exitC passes targets).2) := by
  rw [mainWipe_root_eq]
  refine ⟨List.getLast?_concat _, ?_, ?_⟩
  · intro t ht hf
    refine ⟨List.mem_append_left _ (notFound_mem_targetLoop pE exitC passes t hf targets ht), ?_⟩
    intro p hmem
    rcases List.mem_append.mp hmem with hmem | hmem
    · exact spawn_not_mem_targetLoop pE exitC passes t hf targets p hmem
    · simp at hmem
  · intro t ht he hp
    exact List.mem_append_left _ (spawn_one_mem_targetLoop pE exitC passes hp t he targets ht)

/-- Witness for C10: with targets `/a`, `/b`, `/c` of which `/b` is missing,
the run reports `/b` and still wipes `/c`. -/
theorem c10_missing_target_skipped_witness :
    WEvent.notFound "/b" ∈
        (mainWipe 0 (fun s => s != "/b") (fun _ _ => 0) 1 ["/a", "/b", "/c"]).2 ∧
      WEvent.ddSpawn "/c" 1 ∈
        (mainWipe 0 (fun s => s != "/b") (fun _ _ => 0) 1 ["/a", "/b", "/c"]).2 := by
  constructor
  · exact ((c10_missing_target_skipped (fun s => s != "/b") (fun _ _ => 0) 1
      ["/a", "/b", "/c"]).2.1 "/b" (by decide) (by decide)).1
  · exact (c10_missing_target_skipped (fun s => s != "/b") (fun _ _ => 0) 1
      ["/a", "/b", "/c"]).2.2 "/c" (by decide) (by decide) (by decide)
